import Mathlib

/-!
# gdvm: the godot acquisition service and the Windows executable pattern

Shallow embedding of `internal/services/godot/godot.go` and
`internal/services/godot/fetcher/fetcher_windows.go`.

The service functions are translated statement by statement.  The packages they
call (`environment`, `utils`, `downloading`, `archiving`, `semver`, `os`,
`path/filepath`) are not part of the embedded sources; their functions are
parameters of the embedding (`Environment`, `Packages`), so every theorem holds
for every behaviour of those collaborators.  Every call to a collaborator is
recorded, in order, next to the output, so that "makes no call to the transport"
and "performs these effects in this order" are statements about the record.

The pattern of `fetcher_windows.go` is compiled by Go's standard `regexp`
package; the part of its parser that the pattern exercises is modelled here
(`parseLoop`), together with a matcher for the parsed expressions.
-/

namespace Gdvm

/-! ## Errors -/

/-- Go `error` values: a sentinel (compared by identity, here by its name), or
an error built by `fmt.Errorf("<context>%w", inner)`, which wraps `inner`. -/
inductive GoError where
  | sentinel (name : String)
  | wrapped (context : String) (inner : GoError)
deriving DecidableEq, Repr

deriving instance DecidableEq for Except

/-- The sentinel `downloading.ErrNotFound`. -/
def ErrNotFound : GoError := .sentinel "downloading.ErrNotFound"

/-- The sentinel `os.ErrNotExist`. -/
def ErrNotExist : GoError := .sentinel "os.ErrNotExist"

/-- Go `errors.Is(err, target)` for a non-nil `err`: walks the `Unwrap` chain and
compares every link with `target`. -/
def errorsIs : GoError → GoError → Bool
  | .sentinel n, target => decide (GoError.sentinel n = target)
  | .wrapped ctx inner, target =>
      decide (GoError.wrapped ctx inner = target) || errorsIs inner target

/-- Go `err.Error()`. -/
def GoError.Error : GoError → String
  | .sentinel n => n
  | .wrapped ctx inner => ctx ++ inner.Error

/-- Go `fmt.Errorf(context + "%w", err)`. -/
def fmtErrorf (context : String) (err : GoError) : GoError := .wrapped context err

/-! ## Data -/

/-- The `Relver` part of a `semver.Semver`; the version and release types are
declared in the `semver` package and are left abstract. -/
structure Relver (V R : Type) where
  Version : V
  Release : R
deriving DecidableEq, Repr

/-- The value `semver.Semver`, as far as the service reads it
(`semver.Relver.Version`, `semver.Relver.Release`, `semver.Mono`). -/
structure Semver (V R : Type) where
  Relver : Relver V R
  Mono : Bool
deriving DecidableEq, Repr

/-- An upstream asset as the service reads it (`asset.Name`, `asset.DownloadURL`). -/
structure Asset where
  Name : String
  DownloadURL : String
deriving DecidableEq, Repr

/-- The fields of `config.Config` that the embedded files read. -/
structure Config where
  Verbose : Bool
  GodotRootDirectory : String
  CacheDirectory : String
  BinDirectory : String
deriving DecidableEq, Repr

/-- A directory entry returned by `os.ReadDir` (`entry.Name()`, `entry.IsDir()`). -/
structure DirEntry where
  Name : String
  IsDir : Bool
deriving DecidableEq, Repr

/-- The resolver `environment.Environment`: `FetchAsset` answers from the upstream
catalog and does not touch the persisted state. -/
structure Environment (V R : Type) where
  FetchAsset : Semver V R → Except GoError Asset

/-- The package functions the service calls, over a world `W` (the persisted
state: cache directory and install root).  `DoesExist` and `ReadDir` observe the
world; `MkdirAll`, `RemoveAll`, `Download` and `Unzip` return Go's `error` (`none`
is `nil`) and the world they leave behind, also when they fail. -/
structure Packages (V R W : Type) where
  /-- The method `semver.Semver.GodotString`. -/
  GodotString : Semver V R → String
  /-- The function `semver.Parse`. -/
  Parse : String → Except GoError (Semver V R)
  /-- The method `String` of `Relver.Version`. -/
  VersionString : V → String
  /-- The method `String` of `Relver.Release`. -/
  ReleaseString : R → String
  /-- The function `filepath.Join`. -/
  Join : List String → String
  /-- The function `utils.DoesExist`. -/
  DoesExist : String → W → Except GoError Bool
  /-- The function `os.ReadDir`: the entries read and the error. -/
  ReadDir : String → W → List DirEntry × Option GoError
  /-- The function `os.MkdirAll`. -/
  MkdirAll : String → W → Option GoError × W
  /-- The function `os.RemoveAll`. -/
  RemoveAll : String → W → Option GoError × W
  /-- The function `downloading.Download` (the transport). -/
  Download : String → String → W → Option GoError × W
  /-- The function `archiving.Unzip` (the archiver). -/
  Unzip : String → String → W → Option GoError × W
  /-- The method `semver.Semver.String` (declared last: the field shadows the type's name). -/
  String : Semver V R → String

/-- The struct `godot.Service`. -/
structure Service (V R : Type) where
  Environment : Environment V R
  Config : Config

/-- A call made to a collaborator, with its arguments. -/
inductive Call (V R : Type) where
  | FetchAsset (semver : Semver V R)
  | DoesExist (path : String)
  | ReadDir (path : String)
  | MkdirAll (path : String)
  | RemoveAll (path : String)
  | Download (url : String) (path : String)
  | Unzip (source : String) (target : String)
deriving DecidableEq, Repr

/-- What the process writes to standard output: a line of `utils.Printlnf`, or a
table rendered by `table.Writer.Render` (header and rows). -/
inductive Out where
  | line (text : String)
  | table (header : List String) (rows : List (String × String × Bool))
deriving DecidableEq, Repr

/-- The state threaded through one execution: the world, the collaborator calls
made so far (oldest first) and the output so far. -/
structure Run (V R W : Type) where
  world : W
  calls : List (Call V R)
  out : List Out

/-- The state at the start of a command. -/
def Run.start {V R W : Type} (w : W) : Run V R W := ⟨w, [], []⟩

/-- Go `utils.Printlnf` with the already formatted text. -/
def Printlnf {V R W : Type} (text : String) (st : Run V R W) : Run V R W :=
  { st with out := st.out ++ [Out.line text] }

/-- Records a call to a collaborator. -/
def Run.call {V R W : Type} (st : Run V R W) (c : Call V R) : Run V R W :=
  { st with calls := st.calls ++ [c] }

/-- Records a call to a collaborator that changes the world. -/
def Run.effect {V R W : Type} (st : Run V R W) (c : Call V R) (w : W) : Run V R W :=
  { st with calls := st.calls ++ [c], world := w }

/-! ## godot.go -/

/-- The constant `GODOT_FOLDER`. -/
def GODOT_FOLDER : String := "godot"

/-- Go `Service.targetDirectory`. -/
def Service.targetDirectory {V R W : Type} (p : Packages V R W) (s : Service V R)
    (semver : Semver V R) : String :=
  p.Join [s.Config.GodotRootDirectory, p.String semver]

/-- Go `Service.archivePath`. -/
def Service.archivePath {V R W : Type} (p : Packages V R W) (s : Service V R)
    (name : String) : String :=
  p.Join [s.Config.CacheDirectory, GODOT_FOLDER, name]

/-- The text of `"Godot '%s' not found. Use 'gdvm versions list' to see available versions."`. -/
def msgNotFoundRemote (sv : String) : String :=
  "Godot '" ++ sv ++ "' not found. Use 'gdvm versions list' to see available versions."

/-- Go `Service.Download`. -/
def Service.Download {V R W : Type} (p : Packages V R W) (s : Service V R)
    (semver : Semver V R) (st : Run V R W) : Option GoError × Run V R W :=
  let st := if s.Config.Verbose then
      Printlnf ("Attempting to download '" ++ p.String semver ++ "' godot...") st
    else st
  let st := st.call (.FetchAsset semver)
  match s.Environment.FetchAsset semver with
  | .error err =>
    if errorsIs err ErrNotFound then
      (none, Printlnf (msgNotFoundRemote (p.String semver)) st)
    else
      (some (fmtErrorf "fetch asset failed: " err), st)
  | .ok asset =>
    let archivePath := s.archivePath p asset.Name
    let st := st.call (.DoesExist archivePath)
    match p.DoesExist archivePath st.world with
    | .error err => (some (fmtErrorf "failed to check existence: " err), st)
    | .ok present =>
      if present then
        (none, Printlnf ("Godot '" ++ p.String semver ++ "' already downloaded") st)
      else
        let st := if s.Config.Verbose then
            Printlnf ("Downloading to: " ++ archivePath)
              (Printlnf ("Downloading from: " ++ asset.DownloadURL) st)
          else st
        let r := p.Download asset.DownloadURL archivePath st.world
        let st := st.effect (.Download asset.DownloadURL archivePath) r.2
        match r.1 with
        | some err =>
          if errorsIs err ErrNotFound then
            (none, Printlnf (msgNotFoundRemote (p.String semver)) st)
          else
            (some (fmtErrorf "download failed: " err), st)
        | none =>
          (none, Printlnf ("Godot '" ++ p.String semver ++ "' downloaded") st)

/-- Go `Service.Uninstall`. -/
def Service.Uninstall {V R W : Type} (p : Packages V R W) (s : Service V R)
    (semver : Semver V R) (logMissing : Bool) (st : Run V R W) :
    Option GoError × Run V R W :=
  let st := if s.Config.Verbose then
      Printlnf ("Attempting to uninstall '" ++ p.String semver ++ "' godot...") st
    else st
  let targetDirectory := s.targetDirectory p semver
  let st := st.call (.DoesExist targetDirectory)
  match p.DoesExist targetDirectory st.world with
  | .error err => (some (fmtErrorf "failed to check existence: " err), st)
  | .ok present =>
    if !present then
      let st := if logMissing then
          Printlnf ("Godot '" ++ p.String semver ++ "' not found") st
        else st
      (none, st)
    else
      let st := if s.Config.Verbose then
          Printlnf ("Removing directory: " ++ targetDirectory) st
        else st
      let r := p.RemoveAll targetDirectory st.world
      let st := st.effect (.RemoveAll targetDirectory) r.2
      match r.1 with
      | some err => (some (fmtErrorf "cannot remove directory: " err), st)
      | none => (none, Printlnf ("Godot '" ++ p.String semver ++ "' uninstalled") st)

/-- Go `Service.Install`. -/
def Service.Install {V R W : Type} (p : Packages V R W) (s : Service V R)
    (semver : Semver V R) (st : Run V R W) : Option GoError × Run V R W :=
  let st := if s.Config.Verbose then
      Printlnf ("Attempting to install '" ++ p.String semver ++ "' godot...") st
    else st
  let st := st.call (.FetchAsset semver)
  match s.Environment.FetchAsset semver with
  | .error err =>
    if errorsIs err ErrNotFound then
      (none, Printlnf (msgNotFoundRemote (p.String semver)) st)
    else
      (some (fmtErrorf "fetch asset failed: " err), st)
  | .ok asset =>
    let targetDirectory := s.targetDirectory p semver
    let archivePath := s.archivePath p asset.Name
    let st := st.call (.DoesExist targetDirectory)
    match p.DoesExist targetDirectory st.world with
    | .error err => (some (fmtErrorf "failed to check existence: " err), st)
    | .ok present =>
      if present then
        (none, Printlnf ("Godot '" ++ p.String semver ++ "' already installed") st)
      else
        let r := p.MkdirAll s.Config.GodotRootDirectory st.world
        let st := st.effect (.MkdirAll s.Config.GodotRootDirectory) r.2
        match r.1 with
        | some err => (some (fmtErrorf "cannot make directory: " err), st)
        | none =>
          let r := p.RemoveAll targetDirectory st.world
          let st := st.effect (.RemoveAll targetDirectory) r.2
          match r.1 with
          | some err => (some (fmtErrorf "cannot remove directory: " err), st)
          | none =>
            let st := if s.Config.Verbose then
                Printlnf ("Downloading to: " ++ archivePath)
                  (Printlnf ("Downloading from: " ++ asset.DownloadURL) st)
              else st
            let r := p.Download asset.DownloadURL archivePath st.world
            let st := st.effect (.Download asset.DownloadURL archivePath) r.2
            match r.1 with
            | some err =>
              if errorsIs err ErrNotFound then
                (none, Printlnf (msgNotFoundRemote (p.String semver)) st)
              else
                (some (fmtErrorf "download failed: " err), st)
            | none =>
              let st := if s.Config.Verbose then
                  Printlnf ("Unzipping to: " ++ targetDirectory)
                    (Printlnf ("Unzipping from: " ++ archivePath) st)
                else st
              let r := p.Unzip archivePath targetDirectory st.world
              let st := st.effect (.Unzip archivePath targetDirectory) r.2
              match r.1 with
              | some err => (some (fmtErrorf "unzip failed: " err), st)
              | none =>
                (none, Printlnf ("Godot '" ++ p.String semver ++ "' installed") st)

/-- The body of the `for _, entry := range entries` loop of `Service.List`, run
over the remaining entries: `rows` are the rows appended to the table so far. -/
def Service.listLoop {V R W : Type} (p : Packages V R W) (s : Service V R) :
    List DirEntry → List (String × String × Bool) → Run V R W →
    List (String × String × Bool) × Run V R W
  | [], rows, st => (rows, st)
  | entry :: rest, rows, st =>
    if !entry.IsDir then
      Service.listLoop p s rest rows st
    else
      match p.Parse entry.Name with
      | .error err =>
        let st := if s.Config.Verbose then
            Printlnf ("Failed to recognize version: " ++ err.Error) st
          else st
        Service.listLoop p s rest rows st
      | .ok semver =>
        let version := p.VersionString semver.Relver.Version
        let release := p.ReleaseString semver.Relver.Release
        let mono := semver.Mono
        Service.listLoop p s rest (rows ++ [(version, release, mono)]) st

/-- The part of `Service.List` after the check of the `os.ReadDir` error: the
empty case, the loop and the rendering of the table. -/
def Service.listEntries {V R W : Type} (p : Packages V R W) (s : Service V R)
    (entries : List DirEntry) (st : Run V R W) : Option GoError × Run V R W :=
  if entries.length = 0 then
    (none, Printlnf "No godot versions installed" st)
  else
    let t := Service.listLoop p s entries [] st
    (none, { t.2 with out := t.2.out ++ [Out.table ["Version", "Release", "Mono?"] t.1] })

/-- Go `Service.List`. -/
def Service.List {V R W : Type} (p : Packages V R W) (s : Service V R)
    (st : Run V R W) : Option GoError × Run V R W :=
  let r := p.ReadDir s.Config.GodotRootDirectory st.world
  let st := st.call (.ReadDir s.Config.GodotRootDirectory)
  match r.2 with
  | some err =>
    if !errorsIs err ErrNotExist then
      (some (fmtErrorf "cannot read godot root directory: " err), st)
    else
      Service.listEntries p s r.1 st
  | none => Service.listEntries p s r.1 st

/-- The calls that write or remove something: `os.MkdirAll`, `os.RemoveAll`, the
transport and the archiver. -/
def Call.isEffect {V R : Type} : Call V R → Bool
  | .MkdirAll _ => true
  | .RemoveAll _ => true
  | .Download _ _ => true
  | .Unzip _ _ => true
  | _ => false

/-- The calls to the transport `downloading.Download`. -/
def Call.isTransport {V R : Type} : Call V R → Bool
  | .Download _ _ => true
  | _ => false

/-- The rows of the tables in an output. -/
def rowsOf : List Out → List (String × String × Bool)
  | [] => []
  | Out.line _ :: rest => rowsOf rest
  | Out.table _ rows :: rest => rows ++ rowsOf rest

/-- The row `Service.List` appends for an entry, if it appends one. -/
def Service.rowOf {V R W : Type} (p : Packages V R W) (entry : DirEntry) :
    Option (String × String × Bool) :=
  if entry.IsDir then
    match p.Parse entry.Name with
    | .ok semver =>
      some (p.VersionString semver.Relver.Version, p.ReleaseString semver.Relver.Release,
        semver.Mono)
    | .error _ => none
  else none

/-! ## Go's `regexp` (the fragment the pattern is written in) -/

/-- The error codes of `regexp/syntax` that the modelled fragment can produce.
`OutsideModel` is not a Go code: it marks syntax this model does not cover
(counted repetition, escapes other than escaped punctuation, POSIX and Perl
character classes). -/
inductive ErrorCode where
  | ErrInvalidCharRange
  | ErrInvalidNamedCapture
  | ErrInvalidPerlOp
  | ErrInvalidRepeatOp
  | ErrMissingBracket
  | ErrMissingParen
  | ErrMissingRepeatArgument
  | ErrTrailingBackslash
  | ErrUnexpectedParen
  | OutsideModel
deriving DecidableEq, Repr

/-- Go `syntax.Error`: the code and the offending text. -/
structure SyntaxError where
  Code : ErrorCode
  Expr : String
deriving DecidableEq, Repr

/-- The parse flags that `(?flags)` groups change. -/
structure Flags where
  FoldCase : Bool
  OneLine : Bool
  DotNL : Bool
  NonGreedy : Bool
deriving DecidableEq, Repr

/-- The flags of `syntax.Perl`, which `regexp.Compile` parses with. -/
def Flags.Perl : Flags := ⟨false, true, false, false⟩

/-- Go `syntax.Regexp`, the parsed expression. -/
inductive Regexp where
  | EmptyMatch
  | Literal (fold : Bool) (c : Char)
  | CharClass (negate fold : Bool) (ranges : List (Char × Char))
  | AnyCharNotNL
  | AnyChar
  | BeginLine
  | EndLine
  | BeginText
  | EndText
  | Capture (index : Nat) (name : String) (sub : Regexp)
  | Star (greedy : Bool) (sub : Regexp)
  | Plus (greedy : Bool) (sub : Regexp)
  | Quest (greedy : Bool) (sub : Regexp)
  | Concat (left right : Regexp)
  | Alternate (left right : Regexp)
deriving DecidableEq, Repr

/-- An open group on the parse stack (Go's `opLeftParen` entry): its capture
index (0 for a non-capturing group), its name, the flags to restore at the
closing parenthesis, and what the enclosing level had parsed so far. -/
structure OpenParen where
  Cap : Nat
  Name : String
  Flags : Flags
  alts : List Regexp
  cur : List Regexp
deriving DecidableEq, Repr

/-- The parser state: the flags in force, the number of capture groups, the
alternatives completed at this level (those below Go's `opVerticalBar`), the
items of the current concatenation (newest first) and the open groups
(innermost first). -/
structure Parser where
  flags : Flags
  numCap : Nat
  alts : List Regexp
  cur : List Regexp
  stack : List OpenParen
deriving DecidableEq, Repr

/-- Go `parser.concat` (via `collapse`): the concatenation of the items, given newest first. -/
def concatOf : List Regexp → Regexp
  | [] => .EmptyMatch
  | [r] => r
  | r :: rest => .Concat (concatOf rest) r

/-- Go `parser.alternate` (via `collapse`): the alternation of the alternatives, oldest first. -/
def alternateOf : List Regexp → Regexp
  | [] => .EmptyMatch
  | [r] => r
  | r :: rest => .Alternate r (alternateOf rest)

/-- The expression of the level being closed: `concat`, `swapVerticalBar`, `alternate`. -/
def Parser.level (p : Parser) : Regexp := alternateOf (p.alts ++ [concatOf p.cur])

/-- Pushes a parsed item. -/
def Parser.push (p : Parser) (r : Regexp) : Parser := { p with cur := r :: p.cur }

/-- Go `p.op(opLeftParen)` with the capture index and name. -/
def Parser.leftParen (p : Parser) (cap : Nat) (name : String) : Parser :=
  { p with alts := [], cur := [], stack := ⟨cap, name, p.flags, p.alts, p.cur⟩ :: p.stack }

/-- Go `parser.parseVerticalBar`. -/
def Parser.parseVerticalBar (p : Parser) : Parser :=
  { p with alts := p.alts ++ [concatOf p.cur], cur := [] }

/-- Go `parser.parseRightParen`. -/
def Parser.parseRightParen (whole : String) (p : Parser) : Except SyntaxError Parser :=
  match p.stack with
  | [] => .error ⟨.ErrUnexpectedParen, whole⟩
  | g :: rest =>
    let re := if g.Cap = 0 then p.level else .Capture g.Cap g.Name p.level
    .ok { flags := g.Flags, numCap := p.numCap, alts := g.alts, cur := re :: g.cur, stack := rest }

/-- The repetition operators `*`, `+`, `?`. -/
def repeatOp (c : Char) (greedy : Bool) (sub : Regexp) : Regexp :=
  if c = '*' then .Star greedy sub else if c = '+' then .Plus greedy sub else .Quest greedy sub

/-- Go `parser.repeat` for `*`, `+`, `?`: `text` is the operator as written (with
its `?` suffix when `lazy`), `lastRepeat` the operator parsed just before, if any. -/
def Parser.repeat (p : Parser) (c : Char) (lazy : Bool) (text lastRepeat : List Char) :
    Except SyntaxError Parser :=
  if lastRepeat ≠ [] then
    .error ⟨.ErrInvalidRepeatOp, String.mk (lastRepeat ++ text)⟩
  else
    match p.cur with
    | [] => .error ⟨.ErrMissingRepeatArgument, String.mk text⟩
    | sub :: rest => .ok { p with cur := repeatOp c (p.flags.NonGreedy == lazy) sub :: rest }

/-- Go `isalnum`. -/
def isalnum (c : Char) : Bool :=
  ('0' ≤ c && c ≤ '9') || ('A' ≤ c && c ≤ 'Z') || ('a' ≤ c && c ≤ 'z')

/-- The escapes `parseEscape` turns into the character itself: ASCII punctuation. -/
def isEscapedLiteral (c : Char) : Bool := c.toNat < 128 && !isalnum c

/-- Go `isValidCaptureName`. -/
def isValidCaptureName (name : List Char) : Bool :=
  name ≠ [] && name.all (fun c => c = '_' || isalnum c)

/-- Where the parser is inside the pattern.  `seen` is the text of the construct
read so far, kept for error messages. -/
inductive Mode where
  /-- The main loop of `parse`; `lastRepeat` is the repetition operator just read. -/
  | main (lastRepeat : List Char)
  /-- After a `(` that is followed by `?`: at the `?`. -/
  | question
  /-- Inside `parsePerlFlags`, at the `P<` or `<` that opens a capture name. -/
  | nameOpen (seen : List Char)
  /-- Inside a capture name, after `(?P<` or `(?<`. -/
  | captureName (seen name : List Char)
  /-- Inside `parsePerlFlags`, after `(?`, reading flags. -/
  | perlFlags (seen : List Char) (flags : Flags) (negative sawFlag : Bool)
  /-- After a repetition operator that is followed by `?`: at the `?`. -/
  | lazyMark (op : Char)
  /-- After a backslash in the main loop. -/
  | escape
  /-- After a `[` that is followed by `^`: at the `^`. -/
  | classNegate
  /-- Inside `parseClass`, before an item; `first` allows a leading `]`. -/
  | classItem (seen : List Char) (negate first : Bool) (ranges : List (Char × Char))
  /-- Inside `parseClass`, after a backslash; `lo` is set when the escape is the
  upper end of a range. -/
  | classEscape (seen : List Char) (negate : Bool) (ranges : List (Char × Char))
      (lo : Option Char)
  /-- Inside `parseClass`, after a character that may start a range. -/
  | classLo (seen : List Char) (negate : Bool) (ranges : List (Char × Char)) (lo : Char)
  /-- Inside `parseClass`, after a character and a `-`. -/
  | classDash (seen : List Char) (negate : Bool) (ranges : List (Char × Char)) (lo : Char)

/-- Adds the range `lo-hi` to a class, or fails with `ErrInvalidCharRange`. -/
def addRange (ranges : List (Char × Char)) (lo hi : Char) :
    Except SyntaxError (List (Char × Char)) :=
  if hi < lo then .error ⟨.ErrInvalidCharRange, String.mk [lo, '-', hi]⟩
  else .ok (ranges ++ [(lo, hi)])

/-- Go `p.numCap++; p.op(opLeftParen).Cap = p.numCap` (with the name, if any). -/
def Parser.capture (p : Parser) (name : String) : Parser :=
  { p with numCap := p.numCap + 1 }.leftParen (p.numCap + 1) name

/-- The flags after one flag letter of a `(?flags)` group, if it is one. -/
def setFlag (flags : Flags) (negative : Bool) (c : Char) : Option Flags :=
  if c = 'i' then some { flags with FoldCase := !negative }
  else if c = 'm' then some { flags with OneLine := negative }
  else if c = 's' then some { flags with DotNL := !negative }
  else if c = 'U' then some { flags with NonGreedy := !negative }
  else none

/-- The end of the pattern: `parse` closes the outermost level, or fails when a
group, a flag group, a capture name, an escape or a class is still open. -/
def parseEnd (whole : String) : Mode → Parser → Except SyntaxError Regexp
  | .main _, p =>
    if p.stack ≠ [] then .error ⟨.ErrMissingParen, whole⟩ else .ok p.level
  | .question, _ => .error ⟨.ErrInvalidPerlOp, "("⟩
  | .nameOpen seen, _ => .error ⟨.ErrInvalidNamedCapture, String.mk seen⟩
  | .captureName seen name, _ => .error ⟨.ErrInvalidNamedCapture, String.mk (seen ++ name)⟩
  | .perlFlags seen _ _ _, _ => .error ⟨.ErrInvalidPerlOp, String.mk seen⟩
  | .lazyMark _, p =>
    if p.stack ≠ [] then .error ⟨.ErrMissingParen, whole⟩ else .ok p.level
  | .escape, _ => .error ⟨.ErrTrailingBackslash, ""⟩
  | .classNegate, _ => .error ⟨.ErrMissingBracket, "["⟩
  | .classItem seen _ _ _, _ => .error ⟨.ErrMissingBracket, String.mk seen⟩
  | .classEscape _ _ _ _, _ => .error ⟨.ErrTrailingBackslash, ""⟩
  | .classLo seen _ _ _, _ => .error ⟨.ErrMissingBracket, String.mk seen⟩
  | .classDash seen _ _ _, _ => .error ⟨.ErrMissingBracket, String.mk seen⟩

/-- Go `syntax.Parse` with the flags `syntax.Perl`, reading the pattern one
character at a time: the main loop of `parse`, with `parsePerlFlags` and
`parseClass` as modes.  Every step consumes the character `c`; what follows it
is only inspected. -/
def parseLoop (whole : String) : Mode → List Char → Parser → Except SyntaxError Regexp
  | mode, [], p => parseEnd whole mode p
  | .main lastRepeat, c :: t, p =>
    if c = '(' then
      if t.head? = some '?' then
        -- flag changes, non-capturing groups and named captures
        parseLoop whole .question t p
      else
        parseLoop whole (.main []) t (p.capture "")
    else if c = '|' then
      parseLoop whole (.main []) t p.parseVerticalBar
    else if c = ')' then
      match p.parseRightParen whole with
      | .error e => .error e
      | .ok p1 => parseLoop whole (.main []) t p1
    else if c = '^' then
      parseLoop whole (.main []) t (p.push (if p.flags.OneLine then .BeginText else .BeginLine))
    else if c = '$' then
      parseLoop whole (.main []) t (p.push (if p.flags.OneLine then .EndText else .EndLine))
    else if c = '.' then
      parseLoop whole (.main []) t (p.push (if p.flags.DotNL then .AnyChar else .AnyCharNotNL))
    else if c = '[' then
      if t.head? = some '^' then parseLoop whole .classNegate t p
      else parseLoop whole (.classItem ['['] false true []) t p
    else if c = '*' ∨ c = '+' ∨ c = '?' then
      if t.head? = some '?' then
        match p.repeat c true [c, '?'] lastRepeat with
        | .error e => .error e
        | .ok p1 => parseLoop whole (.lazyMark c) t p1
      else
        match p.repeat c false [c] lastRepeat with
        | .error e => .error e
        | .ok p1 => parseLoop whole (.main [c]) t p1
    else if c = '\x7b' then
      .error ⟨.OutsideModel, "\x7b"⟩
    else if c = '\\' then
      parseLoop whole .escape t p
    else
      parseLoop whole (.main []) t (p.push (.Literal p.flags.FoldCase c))
  | .question, _ :: t, p =>
    if (t.head? = some 'P' ∧ t.tail.head? = some '<' ∧ 2 < t.length) ∨
        (t.head? = some '<' ∧ 1 < t.length) then
      parseLoop whole (.nameOpen ['(', '?']) t p
    else
      parseLoop whole (.perlFlags ['(', '?'] p.flags false false) t p
  | .nameOpen seen, c :: t, p =>
    if c = '<' then parseLoop whole (.captureName (seen ++ [c]) []) t p
    else parseLoop whole (.nameOpen (seen ++ [c])) t p
  | .captureName seen name, c :: t, p =>
    if c = '>' then
      if isValidCaptureName name then parseLoop whole (.main []) t (p.capture (String.mk name))
      else .error ⟨.ErrInvalidNamedCapture, String.mk (seen ++ name ++ [c])⟩
    else parseLoop whole (.captureName seen (name ++ [c])) t p
  | .perlFlags seen flags negative sawFlag, c :: t, p =>
    match setFlag flags negative c with
    | some flags1 => parseLoop whole (.perlFlags (seen ++ [c]) flags1 negative true) t p
    | none =>
      if c = '-' then
        if negative then .error ⟨.ErrInvalidPerlOp, String.mk (seen ++ [c])⟩
        else parseLoop whole (.perlFlags (seen ++ [c]) flags true false) t p
      else if c = ':' ∨ c = ')' then
        if negative ∧ ¬ sawFlag then .error ⟨.ErrInvalidPerlOp, String.mk (seen ++ [c])⟩
        else if c = ':' then
          parseLoop whole (.main []) t { p.leftParen 0 "" with flags := flags }
        else
          parseLoop whole (.main []) t { p with flags := flags }
      else
        -- bad flags: `(?` is followed by something that is neither a flag, `-`, `:` nor `)`
        .error ⟨.ErrInvalidPerlOp, String.mk (seen ++ [c])⟩
  | .lazyMark op, _ :: t, p => parseLoop whole (.main [op, '?']) t p
  | .escape, c :: t, p =>
    if isEscapedLiteral c then
      parseLoop whole (.main []) t (p.push (.Literal p.flags.FoldCase c))
    else .error ⟨.OutsideModel, String.mk ['\\', c]⟩
  | .classNegate, _ :: t, p => parseLoop whole (.classItem ['[', '^'] true true []) t p
  | .classItem seen negate first ranges, c :: t, p =>
    if c = ']' ∧ ¬ first then
      parseLoop whole (.main []) t (p.push (.CharClass negate p.flags.FoldCase ranges))
    else if c = '\\' then
      parseLoop whole (.classEscape (seen ++ [c]) negate ranges none) t p
    else if c = '[' ∧ t.head? = some ':' then
      .error ⟨.OutsideModel, "[:"⟩
    else
      parseLoop whole (.classLo (seen ++ [c]) negate ranges c) t p
  | .classEscape seen negate ranges lo, c :: t, p =>
    if isEscapedLiteral c then
      match lo with
      | none => parseLoop whole (.classLo (seen ++ [c]) negate ranges c) t p
      | some l =>
        match addRange ranges l c with
        | .error e => .error e
        | .ok ranges1 => parseLoop whole (.classItem (seen ++ [c]) negate false ranges1) t p
    else .error ⟨.OutsideModel, String.mk ['\\', c]⟩
  | .classLo seen negate ranges lo, c :: t, p =>
    if c = '-' then
      parseLoop whole (.classDash (seen ++ [c]) negate ranges lo) t p
    else if c = ']' then
      parseLoop whole (.main []) t
        (p.push (.CharClass negate p.flags.FoldCase (ranges ++ [(lo, lo)])))
    else if c = '\\' then
      parseLoop whole (.classEscape (seen ++ [c]) negate (ranges ++ [(lo, lo)]) none) t p
    else if c = '[' ∧ t.head? = some ':' then
      .error ⟨.OutsideModel, "[:"⟩
    else
      parseLoop whole (.classLo (seen ++ [c]) negate (ranges ++ [(lo, lo)]) c) t p
  | .classDash seen negate ranges lo, c :: t, p =>
    if c = ']' then
      -- `[a-]` is `a` or `-`
      parseLoop whole (.main []) t
        (p.push (.CharClass negate p.flags.FoldCase (ranges ++ [(lo, lo), ('-', '-')])))
    else if c = '\\' then
      parseLoop whole (.classEscape (seen ++ [c]) negate ranges (some lo)) t p
    else
      match addRange ranges lo c with
      | .error e => .error e
      | .ok ranges1 => parseLoop whole (.classItem (seen ++ [c]) negate false ranges1) t p

/-- Go `syntax.Parse(s, syntax.Perl)`. -/
def Parse (s : String) : Except SyntaxError Regexp :=
  parseLoop s (.main []) s.data ⟨Flags.Perl, 0, [], [], []⟩

/-- The positions reachable from `i` by repeating a step `f` that moves forward:
`fuel` bounds the number of steps, and each step that is kept advances. -/
def starEnds (f : Nat → List Nat) : Nat → Nat → List Nat
  | 0, i => [i]
  | fuel + 1, i => i :: (((f i).filter (fun j => i < j)).map (starEnds f fuel)).flatten

/-- Whether a character is in a class: in one of its ranges, up to case when
`fold` is set (ASCII case folding), and the result is inverted by `negate`. -/
def inClass (negate fold : Bool) (ranges : List (Char × Char)) (c : Char) : Bool :=
  (ranges.any fun r =>
    (r.1 ≤ c && c ≤ r.2) ||
    (fold && ((r.1 ≤ c.toLower && c.toLower ≤ r.2) || (r.1 ≤ c.toUpper && c.toUpper ≤ r.2))))
    != negate

/-- The positions where a match of the expression that starts at position `i` of
the text `s` can end. -/
def matchEnds (s : List Char) : Regexp → Nat → List Nat
  | .EmptyMatch, i => [i]
  | .Literal fold c, i =>
    match s.get? i with
    | some d => if d = c ∨ (fold = true ∧ d.toLower = c.toLower) then [i + 1] else []
    | none => []
  | .CharClass negate fold ranges, i =>
    match s.get? i with
    | some d => if inClass negate fold ranges d then [i + 1] else []
    | none => []
  | .AnyCharNotNL, i =>
    match s.get? i with
    | some d => if d ≠ '\n' then [i + 1] else []
    | none => []
  | .AnyChar, i =>
    match s.get? i with
    | some _ => [i + 1]
    | none => []
  | .BeginLine, i => if i = 0 ∨ s.get? (i - 1) = some '\n' then [i] else []
  | .EndLine, i => if i = s.length ∨ s.get? i = some '\n' then [i] else []
  | .BeginText, i => if i = 0 then [i] else []
  | .EndText, i => if i = s.length then [i] else []
  | .Capture _ _ sub, i => matchEnds s sub i
  | .Star _ sub, i => starEnds (matchEnds s sub) s.length i
  | .Plus _ sub, i => ((matchEnds s sub i).map (starEnds (matchEnds s sub) s.length)).flatten
  | .Quest _ sub, i => i :: matchEnds s sub i
  | .Concat left right, i => ((matchEnds s left i).map (matchEnds s right)).flatten
  | .Alternate left right, i => matchEnds s left i ++ matchEnds s right i

/-- Go `Regexp.MatchString`: whether the text contains a match of the expression. -/
def Regexp.MatchString (re : Regexp) (s : String) : Bool :=
  (List.range (s.length + 1)).any fun i => !(matchEnds s.data re i).isEmpty

/-- Go `regexp.Compile`: the expression is parsed with the Perl flags. -/
def Compile (expr : String) : Except SyntaxError Regexp := Parse expr

/-- A Go panic of `regexp.MustCompile`: the pattern and the error of `Compile`. -/
structure Panic where
  pattern : String
  err : SyntaxError
deriving DecidableEq, Repr

/-- Go `regexp.MustCompile`: the compiled expression, or the panic. -/
def MustCompile (str : String) : Except Panic Regexp :=
  match Compile str with
  | .error err => .error ⟨str, err⟩
  | .ok regexp => .ok regexp

/-! ## fetcher_windows.go -/

/-- The constant `EXECUTABLE_REGEX_PATTERN`. -/
def EXECUTABLE_REGEX_PATTERN : String := "Godot((?!console).)*?[.]exe"

/-- The constant `LINK_FILENAME`. -/
def LINK_FILENAME : String := "godot"

/-- The package variable `ExecutableRegex`, set when the package is initialised:
the compiled expression, or the panic of the initialisation. -/
def ExecutableRegex : Except Panic Regexp := MustCompile EXECUTABLE_REGEX_PATTERN

/-- Whether `ExecutableRegex` matches a file name (`ExecutableRegex.MatchString`),
in a process whose initialisation may have panicked. -/
def executableMatches (name : String) : Except Panic Bool :=
  match ExecutableRegex with
  | .error pnc => .error pnc
  | .ok re => .ok (re.MatchString name)

/-- The struct `fetcher.Fetcher`. -/
structure Fetcher where
  Config : Config

/-- Go `Fetcher.locateExecutable`; `utils.LocateExecutable` is a parameter. -/
def Fetcher.locateExecutable (LocateExecutable : Regexp → String → Bool → Except GoError String)
    (_f : Fetcher) (root : String) : Except Panic (Except GoError String) :=
  match ExecutableRegex with
  | .error pnc => .error pnc
  | .ok re => .ok (LocateExecutable re root true)

/-- Go `Fetcher.TargetPath`. -/
def Fetcher.TargetPath {V R W : Type} (p : Packages V R W)
    (LocateExecutable : Regexp → String → Bool → Except GoError String)
    (f : Fetcher) (semver : Semver V R) : Except Panic (Except GoError String) :=
  f.locateExecutable LocateExecutable (p.Join [f.Config.GodotRootDirectory, p.GodotString semver])

/-- Go `Fetcher.LinkPath`. -/
def Fetcher.LinkPath {V R W : Type} (p : Packages V R W) (f : Fetcher)
    (_semver : Semver V R) : String :=
  p.Join [f.Config.BinDirectory, LINK_FILENAME]

/-! ## A concrete instance

Collaborators over a world that is the list of the paths present on disk, used
to evaluate the service on concrete inputs. -/

/-- A catalog with one resolvable version, one version that is not found and a
failing lookup for everything else. -/
def demoEnvironment : Environment String String where
  FetchAsset semver :=
    if semver.Relver.Version = "4.2.1" then
      .ok ⟨"Godot_v4.2.1-stable_win64.exe.zip", "https://example.org/Godot_v4.2.1-stable_win64.exe.zip"⟩
    else if semver.Relver.Version = "9.9.9" then .error ErrNotFound
    else .error (.sentinel "network unreachable")

/-- Packages over a list of present paths. -/
def demoPackages : Packages String String (List String) where
  GodotString semver := semver.Relver.Version ++ "-" ++ semver.Relver.Release
  Parse name :=
    if name = "4.2.1-stable" then .ok ⟨⟨"4.2.1", "stable"⟩, false⟩
    else if name = "4.3.0-stable" then .ok ⟨⟨"4.3.0", "stable"⟩, false⟩
    else .error (.sentinel "unrecognized")
  VersionString v := v
  ReleaseString r := r
  Join parts := "/".intercalate parts
  DoesExist path w := .ok (decide (path ∈ w))
  ReadDir path w :=
    if path ∈ w then
      ([⟨"4.2.1-stable", true⟩, ⟨"notes", true⟩, ⟨"4.3.0-stable", true⟩, ⟨"readme.txt", false⟩], none)
    else ([], some (.wrapped "open: " ErrNotExist))
  MkdirAll path w := (none, w ++ [path])
  RemoveAll path w := (none, w.filter (fun q => decide (q ≠ path)))
  Download _ path w := (none, w ++ [path])
  Unzip _ target w := (none, w ++ [target])
  String semver := semver.Relver.Version ++ "-" ++ semver.Relver.Release

/-- A service over the concrete collaborators, not verbose. -/
def demoService : Service String String where
  Environment := demoEnvironment
  Config := ⟨false, "root", "cache", "bin"⟩

/-- The request `4.2.1`, `stable`, not mono. -/
def demoSemver : Semver String String := ⟨⟨"4.2.1", "stable"⟩, false⟩

/-- The asset the concrete catalog resolves `demoSemver` to. -/
def demoAsset : Asset :=
  ⟨"Godot_v4.2.1-stable_win64.exe.zip", "https://example.org/Godot_v4.2.1-stable_win64.exe.zip"⟩

/-! ## Theorems: godot.go -/

/-- An error is always itself (`errors.Is(err, err)`). -/
theorem errorsIs_self (e : GoError) : errorsIs e e = true := by
  cases e <;> simp [errorsIs]

/-- An error built by `fmt.Errorf` with `%w` wraps its argument. -/
theorem errorsIs_wrapped (ctx : String) (e : GoError) :
    errorsIs (GoError.wrapped ctx e) e = true := by
  simp [errorsIs, errorsIs_self]

@[simp] theorem Printlnf_world {V R W : Type} (t : String) (st : Run V R W) :
    (Printlnf t st).world = st.world := rfl

@[simp] theorem Printlnf_calls {V R W : Type} (t : String) (st : Run V R W) :
    (Printlnf t st).calls = st.calls := rfl

@[simp] theorem Printlnf_out {V R W : Type} (t : String) (st : Run V R W) :
    (Printlnf t st).out = st.out ++ [Out.line t] := rfl

@[simp] theorem call_world {V R W : Type} (c : Call V R) (st : Run V R W) :
    (st.call c).world = st.world := rfl

@[simp] theorem call_calls {V R W : Type} (c : Call V R) (st : Run V R W) :
    (st.call c).calls = st.calls ++ [c] := rfl

@[simp] theorem call_out {V R W : Type} (c : Call V R) (st : Run V R W) :
    (st.call c).out = st.out := rfl

@[simp] theorem effect_world {V R W : Type} (c : Call V R) (w : W) (st : Run V R W) :
    (st.effect c w).world = w := rfl

@[simp] theorem effect_calls {V R W : Type} (c : Call V R) (w : W) (st : Run V R W) :
    (st.effect c w).calls = st.calls ++ [c] := rfl

@[simp] theorem effect_out {V R W : Type} (c : Call V R) (w : W) (st : Run V R W) :
    (st.effect c w).out = st.out := rfl

@[simp] theorem start_world {V R W : Type} (w : W) :
    (Run.start w : Run V R W).world = w := rfl

@[simp] theorem start_calls {V R W : Type} (w : W) :
    (Run.start w : Run V R W).calls = [] := rfl

@[simp] theorem start_out {V R W : Type} (w : W) :
    (Run.start w : Run V R W).out = [] := rfl

/-- C1. `Service.Download` returns a non-nil error exactly when (a) `FetchAsset`
fails with an error that is not `ErrNotFound`, or (b) the existence check of the
archive path fails, or (c) the archive is absent and the transport fails with an
error that is not `ErrNotFound`.  A `NotFound` from resolution or from the
transport gives `nil`, and every returned error wraps the error of the failing
collaborator. -/
theorem Download_error_iff_fatal {V R W : Type} (p : Packages V R W) (s : Service V R)
    (semver : Semver V R) (w : W) :
    ((Service.Download p s semver (Run.start w)).1 ≠ none ↔
      ((∃ e, s.Environment.FetchAsset semver = .error e ∧ errorsIs e ErrNotFound = false) ∨
       (∃ a e, s.Environment.FetchAsset semver = .ok a ∧
          p.DoesExist (s.archivePath p a.Name) w = .error e) ∨
       (∃ a e, s.Environment.FetchAsset semver = .ok a ∧
          p.DoesExist (s.archivePath p a.Name) w = .ok false ∧
          (p.Download a.DownloadURL (s.archivePath p a.Name) w).1 = some e ∧
          errorsIs e ErrNotFound = false))) ∧
    (∀ e, s.Environment.FetchAsset semver = .error e → errorsIs e ErrNotFound = true →
      (Service.Download p s semver (Run.start w)).1 = none) ∧
    (∀ a e, s.Environment.FetchAsset semver = .ok a →
      p.DoesExist (s.archivePath p a.Name) w = .ok false →
      (p.Download a.DownloadURL (s.archivePath p a.Name) w).1 = some e →
      errorsIs e ErrNotFound = true →
      (Service.Download p s semver (Run.start w)).1 = none) ∧
    (∀ err, (Service.Download p s semver (Run.start w)).1 = some err →
      ∃ ctx u, err = GoError.wrapped ctx u ∧ errorsIs err u = true ∧
        (s.Environment.FetchAsset semver = .error u ∨
         (∃ a, s.Environment.FetchAsset semver = .ok a ∧
            (p.DoesExist (s.archivePath p a.Name) w = .error u ∨
             (p.Download a.DownloadURL (s.archivePath p a.Name) w).1 = some u)))) := by
  unfold Service.Download
  cases hv : s.Config.Verbose <;>
  cases hf : s.Environment.FetchAsset semver with
  | error e =>
    cases hn : errorsIs e ErrNotFound <;> simp [hn, fmtErrorf, errorsIs_wrapped]
  | ok a =>
    cases hd : p.DoesExist (s.archivePath p a.Name) w with
    | error e =>
      simp [hd, fmtErrorf, errorsIs_wrapped]
      refine ⟨?_, _, _, ⟨rfl, rfl⟩, errorsIs_wrapped _ _, Or.inl rfl⟩
      intro a1 e1 ha h1
      subst ha
      rw [hd] at h1
      cases h1
    | ok b =>
      cases b with
      | true => simp [hd]
      | false =>
        cases ht : (p.Download a.DownloadURL (s.archivePath p a.Name) w).1 with
        | none => simp [hd, ht]
        | some e =>
          cases hn : errorsIs e ErrNotFound
          · simp [hd, ht, hn, fmtErrorf, errorsIs_wrapped]
            intro a1 e1 ha _ h1
            subst ha
            rw [ht] at h1
            cases h1
            exact hn
          · simp [hd, ht, hn, fmtErrorf, errorsIs_wrapped]

/-- Witness of C1 on the concrete instance: a version the catalog does not have
gives `nil`, a failing lookup gives an error. -/
theorem Download_error_iff_fatal_witness :
    (Service.Download demoPackages demoService ⟨⟨"9.9.9", "stable"⟩, false⟩
      (Run.start [])).1 = none ∧
    (Service.Download demoPackages demoService ⟨⟨"1.0.0", "stable"⟩, false⟩
      (Run.start [])).1 ≠ none :=
  ⟨(Download_error_iff_fatal demoPackages demoService ⟨⟨"9.9.9", "stable"⟩, false⟩ []).2.1
      ErrNotFound (by decide) (by decide),
   (Download_error_iff_fatal demoPackages demoService ⟨⟨"1.0.0", "stable"⟩, false⟩ []).1.mpr
      (Or.inl ⟨.sentinel "network unreachable", by decide, by decide⟩)⟩

/-- C3. When resolution succeeds and the target install directory exists,
`Service.Install` returns `nil`, reports "already installed", calls only
`FetchAsset` and the existence check (no `MkdirAll`, `RemoveAll`, transport or
archiver call) and leaves the world as it was. -/
theorem Install_idempotent_on_existing_target {V R W : Type} (p : Packages V R W)
    (s : Service V R) (semver : Semver V R) (a : Asset) (w : W)
    (hfetch : s.Environment.FetchAsset semver = .ok a)
    (hpresent : p.DoesExist (s.targetDirectory p semver) w = .ok true) :
    (Service.Install p s semver (Run.start w)).1 = none ∧
    (Service.Install p s semver (Run.start w)).2.world = w ∧
    (Service.Install p s semver (Run.start w)).2.calls =
      [.FetchAsset semver, .DoesExist (s.targetDirectory p semver)] ∧
    (Service.Install p s semver (Run.start w)).2.calls.filter Call.isEffect = [] ∧
    (Service.Install p s semver (Run.start w)).2.out =
      (if s.Config.Verbose then
        [Out.line ("Attempting to install '" ++ p.String semver ++ "' godot...")]
       else []) ++
      [Out.line ("Godot '" ++ p.String semver ++ "' already installed")] := by
  unfold Service.Install
  cases hv : s.Config.Verbose <;> simp [hfetch, hpresent, Call.isEffect]

/-- Witness of C3 on the concrete instance, with the target directory present. -/
theorem Install_idempotent_on_existing_target_witness :
    (Service.Install demoPackages demoService demoSemver
        (Run.start ["root", "root/4.2.1-stable"])).1 = none ∧
    (Service.Install demoPackages demoService demoSemver
        (Run.start ["root", "root/4.2.1-stable"])).2.world = ["root", "root/4.2.1-stable"] :=
  ⟨(Install_idempotent_on_existing_target demoPackages demoService demoSemver demoAsset
      ["root", "root/4.2.1-stable"] rfl (by decide)).1,
   (Install_idempotent_on_existing_target demoPackages demoService demoSemver demoAsset
      ["root", "root/4.2.1-stable"] rfl (by decide)).2.1⟩

/-- C5. When resolution gives asset `a`, the target directory
`GodotRootDirectory/<String of the semver>` is absent and `MkdirAll`,
`RemoveAll`, the transport and the archiver all succeed, `Service.Install`
returns `nil` and its writing calls are, in this order and no others:
`MkdirAll GodotRootDirectory`, `RemoveAll target`, the download of
`a.DownloadURL` to `CacheDirectory/godot/a.Name`, the extraction of that archive
path into the target.  The archive path is the one `Service.Download` hands to
the transport for `a`. -/
theorem Install_success_path {V R W : Type} (p : Packages V R W)
    (s : Service V R) (semver : Semver V R) (a : Asset) (w w1 w2 w3 w4 : W)
    (hfetch : s.Environment.FetchAsset semver = .ok a)
    (habsent : p.DoesExist (p.Join [s.Config.GodotRootDirectory, p.String semver]) w = .ok false)
    (hmkdir : p.MkdirAll s.Config.GodotRootDirectory w = (none, w1))
    (hremove : p.RemoveAll (p.Join [s.Config.GodotRootDirectory, p.String semver]) w1 = (none, w2))
    (hdownload : p.Download a.DownloadURL
      (p.Join [s.Config.CacheDirectory, "godot", a.Name]) w2 = (none, w3))
    (hunzip : p.Unzip (p.Join [s.Config.CacheDirectory, "godot", a.Name])
      (p.Join [s.Config.GodotRootDirectory, p.String semver]) w3 = (none, w4)) :
    (Service.Install p s semver (Run.start w)).1 = none ∧
    (Service.Install p s semver (Run.start w)).2.world = w4 ∧
    (Service.Install p s semver (Run.start w)).2.calls =
      [.FetchAsset semver,
       .DoesExist (p.Join [s.Config.GodotRootDirectory, p.String semver]),
       .MkdirAll s.Config.GodotRootDirectory,
       .RemoveAll (p.Join [s.Config.GodotRootDirectory, p.String semver]),
       .Download a.DownloadURL (p.Join [s.Config.CacheDirectory, "godot", a.Name]),
       .Unzip (p.Join [s.Config.CacheDirectory, "godot", a.Name])
         (p.Join [s.Config.GodotRootDirectory, p.String semver])] ∧
    (Service.Install p s semver (Run.start w)).2.calls.filter Call.isEffect =
      [.MkdirAll s.Config.GodotRootDirectory,
       .RemoveAll (p.Join [s.Config.GodotRootDirectory, p.String semver]),
       .Download a.DownloadURL (p.Join [s.Config.CacheDirectory, "godot", a.Name]),
       .Unzip (p.Join [s.Config.CacheDirectory, "godot", a.Name])
         (p.Join [s.Config.GodotRootDirectory, p.String semver])] ∧
    (∀ v, p.DoesExist (p.Join [s.Config.CacheDirectory, "godot", a.Name]) v = .ok false →
      (Service.Download p s semver (Run.start v)).2.calls.filter Call.isEffect =
        [.Download a.DownloadURL (p.Join [s.Config.CacheDirectory, "godot", a.Name])]) := by
  refine ⟨?_, ?_, ?_, ?_, ?_⟩
  · unfold Service.Install
    cases hv : s.Config.Verbose <;>
      simp [hfetch, habsent, hmkdir, hremove, hdownload, hunzip, Service.targetDirectory,
        Service.archivePath, GODOT_FOLDER]
  · unfold Service.Install
    cases hv : s.Config.Verbose <;>
      simp [hfetch, habsent, hmkdir, hremove, hdownload, hunzip, Service.targetDirectory,
        Service.archivePath, GODOT_FOLDER]
  · unfold Service.Install
    cases hv : s.Config.Verbose <;>
      simp [hfetch, habsent, hmkdir, hremove, hdownload, hunzip, Service.targetDirectory,
        Service.archivePath, GODOT_FOLDER]
  · unfold Service.Install
    cases hv : s.Config.Verbose <;>
      simp [hfetch, habsent, hmkdir, hremove, hdownload, hunzip, Service.targetDirectory,
        Service.archivePath, GODOT_FOLDER, Call.isEffect]
  · intro v hv0
    unfold Service.Download
    rcases ht : p.Download a.DownloadURL (p.Join [s.Config.CacheDirectory, "godot", a.Name]) v
      with ⟨e, v1⟩
    cases e with
    | none =>
      cases hv : s.Config.Verbose <;>
        simp [hfetch, hv0, ht, Service.archivePath, GODOT_FOLDER, Call.isEffect]
    | some e =>
      cases hn : errorsIs e ErrNotFound <;> cases hv : s.Config.Verbose <;>
        simp [hfetch, hv0, ht, hn, Service.archivePath, GODOT_FOLDER, Call.isEffect]

/-- Witness of C5 on the concrete instance, from an empty disk. -/
theorem Install_success_path_witness :
    (Service.Install demoPackages demoService demoSemver (Run.start [])).1 = none ∧
    (Service.Install demoPackages demoService demoSemver (Run.start [])).2.world =
      ["root", "cache/godot/Godot_v4.2.1-stable_win64.exe.zip", "root/4.2.1-stable"] ∧
    (Service.Install demoPackages demoService demoSemver (Run.start [])).2.calls.filter
        Call.isEffect =
      [.MkdirAll "root", .RemoveAll "root/4.2.1-stable",
       .Download "https://example.org/Godot_v4.2.1-stable_win64.exe.zip"
         "cache/godot/Godot_v4.2.1-stable_win64.exe.zip",
       .Unzip "cache/godot/Godot_v4.2.1-stable_win64.exe.zip" "root/4.2.1-stable"] :=
  have h := Install_success_path demoPackages demoService demoSemver demoAsset
    [] ["root"] ["root"] ["root", "cache/godot/Godot_v4.2.1-stable_win64.exe.zip"]
    ["root", "cache/godot/Godot_v4.2.1-stable_win64.exe.zip", "root/4.2.1-stable"]
    rfl (by decide) (by decide) (by decide) (by decide) (by decide)
  ⟨h.1, h.2.1, h.2.2.2.1⟩

/-- The verbose trace line of `Service.Uninstall` is never its "not found" line. -/
theorem attempting_ne_notFound (x : String) :
    "Attempting to uninstall '" ++ x ++ "' godot..." ≠ "Godot '" ++ x ++ "' not found" := by
  intro h
  have h2 := congrArg String.data h
  simp only [String.data_append] at h2
  have h3 := congrArg List.head? h2
  simp at h3

/-- C6. When the target directory of the semver does not exist (and the check
succeeds), `Service.Uninstall` returns `nil` for both values of `logMissing`,
calls nothing but the existence check and leaves the world as it was; the
"not found" line is printed if and only if `logMissing` is true, and when not
verbose and `logMissing` is false nothing is printed. -/
theorem Uninstall_absent {V R W : Type} (p : Packages V R W)
    (s : Service V R) (semver : Semver V R) (logMissing : Bool) (w : W)
    (habsent : p.DoesExist (s.targetDirectory p semver) w = .ok false) :
    (Service.Uninstall p s semver logMissing (Run.start w)).1 = none ∧
    (Service.Uninstall p s semver logMissing (Run.start w)).2.world = w ∧
    (Service.Uninstall p s semver logMissing (Run.start w)).2.calls =
      [.DoesExist (s.targetDirectory p semver)] ∧
    (Service.Uninstall p s semver logMissing (Run.start w)).2.out =
      (if s.Config.Verbose then
        [Out.line ("Attempting to uninstall '" ++ p.String semver ++ "' godot...")]
       else []) ++
      (if logMissing then [Out.line ("Godot '" ++ p.String semver ++ "' not found")]
       else []) ∧
    (Out.line ("Godot '" ++ p.String semver ++ "' not found") ∈
        (Service.Uninstall p s semver logMissing (Run.start w)).2.out ↔
      logMissing = true) ∧
    (s.Config.Verbose = false → logMissing = false →
      (Service.Uninstall p s semver logMissing (Run.start w)).2.out = []) := by
  have hne := attempting_ne_notFound (p.String semver)
  unfold Service.Uninstall
  cases hv : s.Config.Verbose <;> cases logMissing <;> simp [habsent, hne, Ne.symm hne]

/-- Witness of C6 on the concrete instance: an empty install root, silent mode. -/
theorem Uninstall_absent_witness :
    (Service.Uninstall demoPackages demoService demoSemver false (Run.start ["root"])).1 = none ∧
    (Service.Uninstall demoPackages demoService demoSemver false (Run.start ["root"])).2.out = [] :=
  have h := Uninstall_absent demoPackages demoService demoSemver false ["root"] (by decide)
  ⟨h.1, h.2.2.2.2.2 rfl rfl⟩

/-- The loop of `Service.List` appends the rows of the parseable directories, in
order, prints only lines and calls no collaborator of the world. -/
theorem listLoop_spec {V R W : Type} (p : Packages V R W) (s : Service V R)
    (entries : List DirEntry) (rows : List (String × String × Bool)) (st : Run V R W) :
    (Service.listLoop p s entries rows st).1 = rows ++ entries.filterMap (Service.rowOf p) ∧
    (Service.listLoop p s entries rows st).2.world = st.world ∧
    (Service.listLoop p s entries rows st).2.calls = st.calls ∧
    rowsOf (Service.listLoop p s entries rows st).2.out = rowsOf st.out := by
  induction entries generalizing rows st with
  | nil => simp [Service.listLoop]
  | cons entry rest ih =>
    unfold Service.listLoop
    cases hd : entry.IsDir with
    | false => simpa [Service.rowOf, hd] using ih rows st
    | true =>
      cases hp : p.Parse entry.Name with
      | ok semver =>
        simpa [Service.rowOf, hd, hp] using ih (rows ++ [(p.VersionString semver.Relver.Version,
          p.ReleaseString semver.Relver.Release, semver.Mono)]) st
      | error err =>
        cases hv : s.Config.Verbose
        · simpa [Service.rowOf, hd, hp] using ih rows st
        · have h := ih rows (Printlnf ("Failed to recognize version: " ++ err.Error) st)
          have hrows : ∀ (l : List Out) (t : String), rowsOf (l ++ [Out.line t]) = rowsOf l := by
            intro l t
            induction l with
            | nil => rfl
            | cons o l ihl => cases o <;> simp [rowsOf, ihl]
          simpa [Service.rowOf, hd, hp, hrows] using h

/-- C7. When `os.ReadDir` of the install root succeeds or fails with an error
that is `os.ErrNotExist`, `Service.List` returns `nil`, and the rows it renders
are exactly, in enumeration order, the (version, release, mono) triples of the
entries that are directories and whose names `semver.Parse` accepts; the other
entries give no row.  With no entries (a missing root) it prints the
"No godot versions installed" line and no row. -/
theorem List_renders_parseable_directories {V R W : Type} (p : Packages V R W)
    (s : Service V R) (w : W)
    (hread : (p.ReadDir s.Config.GodotRootDirectory w).2 = none ∨
      ∃ e, (p.ReadDir s.Config.GodotRootDirectory w).2 = some e ∧
        errorsIs e ErrNotExist = true) :
    (Service.List p s (Run.start w)).1 = none ∧
    rowsOf (Service.List p s (Run.start w)).2.out =
      (p.ReadDir s.Config.GodotRootDirectory w).1.filterMap (Service.rowOf p) ∧
    (Service.List p s (Run.start w)).2.world = w ∧
    (Service.List p s (Run.start w)).2.calls = [.ReadDir s.Config.GodotRootDirectory] ∧
    ((p.ReadDir s.Config.GodotRootDirectory w).1 = [] →
      (Service.List p s (Run.start w)).2.out = [Out.line "No godot versions installed"]) := by
  have hrest : ∀ st : Run V R W, st.world = w → st.calls = [.ReadDir s.Config.GodotRootDirectory] →
      st.out = [] →
      (Service.listEntries p s (p.ReadDir s.Config.GodotRootDirectory w).1 st).1 = none ∧
      rowsOf (Service.listEntries p s (p.ReadDir s.Config.GodotRootDirectory w).1 st).2.out =
        (p.ReadDir s.Config.GodotRootDirectory w).1.filterMap (Service.rowOf p) ∧
      (Service.listEntries p s (p.ReadDir s.Config.GodotRootDirectory w).1 st).2.world = w ∧
      (Service.listEntries p s (p.ReadDir s.Config.GodotRootDirectory w).1 st).2.calls =
        [.ReadDir s.Config.GodotRootDirectory] ∧
      ((p.ReadDir s.Config.GodotRootDirectory w).1 = [] →
        (Service.listEntries p s (p.ReadDir s.Config.GodotRootDirectory w).1 st).2.out =
          [Out.line "No godot versions installed"]) := by
    intro st hw hc ho
    unfold Service.listEntries
    cases hen : (p.ReadDir s.Config.GodotRootDirectory w).1 with
    | nil => simp [hw, hc, ho, rowsOf]
    | cons entry rest =>
      obtain ⟨h1, h2, h3, h4⟩ := listLoop_spec p s (entry :: rest) [] st
      have hrows : ∀ (l : List Out) (hd : List String) (rs : List (String × String × Bool)),
          rowsOf (l ++ [Out.table hd rs]) = rowsOf l ++ rs := by
        intro l hd rs
        induction l with
        | nil => simp [rowsOf]
        | cons o l ihl => cases o <;> simp [rowsOf, ihl]
      simp only [List.length_cons, Nat.succ_ne_zero, if_false, Nat.add_one_ne_zero]
      refine ⟨trivial, ?_, ?_, ?_, ?_⟩
      · rw [hrows, h4, ho, h1]; simp [rowsOf]
      · rw [h2, hw]
      · rw [h3, hc]
      · intro h; cases h
  unfold Service.List
  rcases hread with hnone | ⟨e, hsome, hne⟩
  · simp only [start_world, hnone]
    exact hrest ((Run.start w).call (.ReadDir s.Config.GodotRootDirectory)) rfl rfl rfl
  · simp only [start_world, hsome, hne, Bool.not_true, Bool.false_eq_true, if_false]
    exact hrest ((Run.start w).call (.ReadDir s.Config.GodotRootDirectory)) rfl rfl rfl

/-- Witness of C7 on the concrete instance: two version directories, one foreign
directory and one file give exactly two rows. -/
theorem List_renders_parseable_directories_witness :
    (Service.List demoPackages demoService (Run.start ["root"])).1 = none ∧
    rowsOf (Service.List demoPackages demoService (Run.start ["root"])).2.out =
      [("4.2.1", "stable", false), ("4.3.0", "stable", false)] :=
  have h := List_renders_parseable_directories demoPackages demoService ["root"]
    (Or.inl (by decide))
  ⟨h.1, h.2.1.trans (by decide)⟩

/-- C4 (the code departs from it). `Service.Install` does not look at the archive
path before it downloads: whenever the target is absent and `MkdirAll` and
`RemoveAll` succeed, it calls the transport for `CacheDirectory/godot/a.Name`,
whatever the existence check of that path would say.  On the concrete instance,
with the archive already in the cache, `Service.Download` makes no transport
call, but `Service.Install` downloads the cached archive again. -/
theorem Install_downloads_cached_archive :
    (∀ (V R W : Type) (p : Packages V R W) (s : Service V R) (semver : Semver V R)
        (a : Asset) (w w1 w2 : W),
      s.Environment.FetchAsset semver = .ok a →
      p.DoesExist (s.targetDirectory p semver) w = .ok false →
      p.MkdirAll s.Config.GodotRootDirectory w = (none, w1) →
      p.RemoveAll (s.targetDirectory p semver) w1 = (none, w2) →
      Call.Download a.DownloadURL (s.archivePath p a.Name) ∈
        (Service.Install p s semver (Run.start w)).2.calls) ∧
    demoPackages.DoesExist "root/4.2.1-stable"
      ["root", "cache/godot/Godot_v4.2.1-stable_win64.exe.zip"] = .ok false ∧
    demoPackages.DoesExist "cache/godot/Godot_v4.2.1-stable_win64.exe.zip"
      ["root", "cache/godot/Godot_v4.2.1-stable_win64.exe.zip"] = .ok true ∧
    (Service.Download demoPackages demoService demoSemver
      (Run.start ["root", "cache/godot/Godot_v4.2.1-stable_win64.exe.zip"])).2.calls.filter
        Call.isTransport = [] ∧
    (Service.Install demoPackages demoService demoSemver
      (Run.start ["root", "cache/godot/Godot_v4.2.1-stable_win64.exe.zip"])).2.calls.filter
        Call.isTransport =
      [.Download "https://example.org/Godot_v4.2.1-stable_win64.exe.zip"
        "cache/godot/Godot_v4.2.1-stable_win64.exe.zip"] := by
  refine ⟨?_, by decide, by decide, by decide, by decide⟩
  intro V R W p s semver a w w1 w2 hfetch habsent hmkdir hremove
  unfold Service.Install
  rcases ht : p.Download a.DownloadURL (s.archivePath p a.Name) w2 with ⟨e, w3⟩
  rcases hz : p.Unzip (s.archivePath p a.Name) (s.targetDirectory p semver) w3 with ⟨z, w4⟩
  cases e with
  | none =>
    cases z <;> cases hv : s.Config.Verbose <;>
      simp [hfetch, habsent, hmkdir, hremove, ht, hz]
  | some e =>
    cases hn : errorsIs e ErrNotFound <;> cases hv : s.Config.Verbose <;>
      simp [hfetch, habsent, hmkdir, hremove, ht, hn]

/-! ## Theorems: fetcher_windows.go -/

/-- C10 (the code departs from it). `EXECUTABLE_REGEX_PATTERN` is not a valid
pattern of Go's `regexp`: after `Godot(` the parser reads `(?!`, which is neither
a flag group, a non-capturing group nor a named capture, and fails with
`ErrInvalidPerlOp`; `regexp.MustCompile` takes its panic branch. -/
theorem MustCompile_pattern_panics :
    Parse EXECUTABLE_REGEX_PATTERN = .error ⟨.ErrInvalidPerlOp, "(?!"⟩ ∧
    MustCompile EXECUTABLE_REGEX_PATTERN =
      .error ⟨"Godot((?!console).)*?[.]exe", ⟨.ErrInvalidPerlOp, "(?!"⟩⟩ := by
  decide

/-- C8 (the code departs from it). `ExecutableRegex` is never a compiled
expression, so no file name is matched: for `Godot_v4.2.1-stable_win64.exe`, and
for every other name, the outcome is the panic of the initialisation, and
`Fetcher.locateExecutable` never reaches `utils.LocateExecutable`. -/
theorem ExecutableRegex_matches_no_name :
    executableMatches "Godot_v4.2.1-stable_win64.exe" =
      .error ⟨"Godot((?!console).)*?[.]exe", ⟨.ErrInvalidPerlOp, "(?!"⟩⟩ ∧
    (∀ name, executableMatches name ≠ .ok true) ∧
    (∀ locate f root, Fetcher.locateExecutable locate f root =
      .error ⟨"Godot((?!console).)*?[.]exe", ⟨.ErrInvalidPerlOp, "(?!"⟩⟩) := by
  have h : ExecutableRegex = .error ⟨"Godot((?!console).)*?[.]exe", ⟨.ErrInvalidPerlOp, "(?!"⟩⟩ := by
    decide
  refine ⟨?_, ?_, ?_⟩
  · simp [executableMatches, h]
  · intro name
    simp [executableMatches, h]
  · intro locate f root
    simp [Fetcher.locateExecutable, h]

end Gdvm
